import Mathlib

/-!
Shallow embedding of the SpeakHub ephemeral voice-channel manager
(src/SpeakHub.py).  The mutable state of the running system — the live
platform channels, the in-memory ownership registry (`voice_channels`
dict), the in-memory creation-cooldown map, and the three SQLite tables
(`voice_channels`, `blocked_users`, `user_invites`) — is collected in one
`SysState` record, and each operation of the source is translated into a
pure state-transformer.  External inputs that the source obtains from the
Discord API (whether a member resolved, whether the category exists,
whether a platform call raised) are passed as explicit parameters.
Timestamps are integers: the source compares `datetime` values whose
ISO-8601 text serialisation orders chronologically, and float monotonic
clock values, both faithfully ordered by `Int`.
-/

namespace SpeakHub

/-- Association-list lookup with `Nat` keys; models Python dict access and
SQL point queries keyed by an integer primary key. -/
def lookupA {α : Type} : List (Nat × α) → Nat → Option α
  | [], _ => none
  | (k, v) :: rest, key => if k == key then some v else lookupA rest key

/-- Association-list update in place, appending when the key is new; models
Python dict item assignment, which preserves insertion order. -/
def setA {α : Type} : List (Nat × α) → Nat → α → List (Nat × α)
  | [], key, v => [(key, v)]
  | (k, w) :: rest, key, v =>
      if k == key then (key, v) :: rest else (k, w) :: setA rest key v

/-- Association-list deletion; models Python `del d[k]`. -/
def eraseA {α : Type} (l : List (Nat × α)) (key : Nat) : List (Nat × α) :=
  l.filter (fun p => p.1 != key)

/-- A live platform voice channel.  `perms` records the per-member connect
permission overwrites: an entry `(uid, b)` is an explicit allow/deny of the
connect right for that member, absence of an entry means "inherit".  Only
the connect right is tracked (the manage/move/mute rights granted to owners
never feed back into the manager's logic).  `userLimit` models the
channel's `user_limit` field. -/
structure Channel where
  id : Nat
  userLimit : Nat
  perms : List (Nat × Bool)
  deriving DecidableEq

/-- A row of the `voice_channels` SQLite table (`channel_id` is the
INTEGER PRIMARY KEY). -/
structure VCRow where
  channel_id : Nat
  owner_id : Nat
  interface_message_id : Option Nat
  deriving DecidableEq

/-- A row of the append-only `user_invites` SQLite table. -/
structure InviteRow where
  inviter_id : Nat
  invited_user_id : Nat
  invited_at : Int
  channel_id : Option Nat
  deriving DecidableEq

/-- The whole mutable state of the manager: live platform channels, current
voice occupancy (member id to channel id), the in-memory ownership registry
`self.voice_channels`, the in-memory `self.cooldowns` map, and the three
SQLite tables. -/
@[ext]
structure SysState where
  platform : List Channel
  occupancy : List (Nat × Nat)
  voice_channels : List (Nat × Nat)
  cooldowns : List (Nat × Int)
  db_voice_channels : List VCRow
  db_blocked_users : List (Nat × Nat)
  db_user_invites : List InviteRow
  deriving DecidableEq

/-- Config value `DEFAULT_CONFIG["create_voice_channel_id"]`: the spawner entry point. -/
def create_voice_channel_id : Nat := 1350793212696072276

/-- Config value `DEFAULT_CONFIG["cooldown_time"]`: creation cooldown in seconds. -/
def cooldown_time : Int := 5

/-- Value of `self.invite_cooldown_duration = timedelta(hours=2)`, in seconds. -/
def invite_cooldown_duration : Int := 7200

/-- Models `bot.get_channel` / `guild.get_channel` restricted to the channels this
model tracks: the platform-side existence lookup. -/
def get_channel (s : SysState) (cid : Nat) : Option Channel :=
  s.platform.find? (fun c => c.id == cid)

/-- Models `channel.set_permissions(member, connect=v)`: `some b` writes an
explicit overwrite, `none` clears it back to inherit. -/
def setPermCh (c : Channel) (uid : Nat) (v : Option Bool) : Channel :=
  match v with
  | some b => { c with perms := setA c.perms uid b }
  | none => { c with perms := eraseA c.perms uid }

/-- Apply a connect overwrite for `uid` on the channel `cid`, when it is
live. -/
def set_permissions (s : SysState) (cid uid : Nat) (v : Option Bool) : SysState :=
  { s with platform := s.platform.map fun c =>
      if c.id == cid then setPermCh c uid v else c }

/-- The connect overwrite of `uid` on channel `c` (`none` = inherit). -/
def connectOf (c : Channel) (uid : Nat) : Option Bool :=
  lookupA c.perms uid

/-- Source `VoiceManager.is_channel_owner`: the acting user owns the channel
according to the in-memory ownership registry. -/
def is_channel_owner (s : SysState) (user_id channel_id : Nat) : Bool :=
  (lookupA s.voice_channels channel_id).isSome &&
    lookupA s.voice_channels channel_id == some user_id

/-- Source `VoiceManager.get_blocked_users`: the block list persisted for one
channel. -/
def get_blocked_users (s : SysState) (channel_id : Nat) : List Nat :=
  (s.db_blocked_users.filter (fun p => p.1 == channel_id)).map (fun p => p.2)

/-- Source `VoiceManager.block_user`: INSERT OR IGNORE the block row, then — when
the channel is live and the member resolves — write an explicit connect
deny and disconnect the member if they are sitting in that channel. -/
def block_user (s : SysState) (channel_id user_id : Nat)
    (memberInGuild : Bool) : SysState :=
  let s1 := if s.db_blocked_users.any (fun p => p.1 == channel_id && p.2 == user_id)
            then s
            else { s with db_blocked_users := s.db_blocked_users ++ [(channel_id, user_id)] }
  match get_channel s1 channel_id with
  | none => s1
  | some _ =>
    if memberInGuild then
      let s2 := set_permissions s1 channel_id user_id (some false)
      if lookupA s2.occupancy user_id == some channel_id
      then { s2 with occupancy := eraseA s2.occupancy user_id }
      else s2
    else s1

/-- Source `VoiceManager.unblock_user`: DELETE the block row, then — when the
channel is live and the member resolves — write an explicit connect
allow. -/
def unblock_user (s : SysState) (channel_id user_id : Nat)
    (memberInGuild : Bool) : SysState :=
  let s1 := { s with db_blocked_users :=
    s.db_blocked_users.filter (fun p => !(p.1 == channel_id && p.2 == user_id)) }
  match get_channel s1 channel_id with
  | none => s1
  | some _ =>
    if memberInGuild then set_permissions s1 channel_id user_id (some true) else s1

/-- The WHERE clause of `check_invite_cooldown`: inviter and invited match,
and when a channel id is supplied the row's channel matches it too. -/
def matchesTriple (r : InviteRow) (i j : Nat) (c : Option Nat) : Bool :=
  r.inviter_id == i && r.invited_user_id == j &&
    (match c with
     | none => true
     | some cid => r.channel_id == some cid)

/-- The query tail `ORDER BY invited_at DESC LIMIT 1` over the matching rows: the latest
recorded timestamp (ISO-8601 text sorts chronologically, modeled by the
maximal integer timestamp). -/
def lastInvite (tbl : List InviteRow) (i j : Nat) (c : Option Nat) : Option Int :=
  (tbl.filter (fun r => matchesTriple r i j c)).foldl
    (fun acc r =>
      match acc with
      | none => some r.invited_at
      | some m => some (max m r.invited_at)) none

/-- Source `VoiceManager.check_invite_cooldown`: true when the latest matching
record is strictly within the 2-hour window.  The whole body runs in a
`try`; `queryFails` models the store query raising, in which case the
`except` branch returns False (not rate-limited). -/
def check_invite_cooldown (s : SysState) (inviter_id invited_user_id : Nat)
    (channel_id : Option Nat) (now : Int) (queryFails : Bool) : Bool :=
  if queryFails then false
  else
    match lastInvite s.db_user_invites inviter_id invited_user_id channel_id with
    | some t => now - t < invite_cooldown_duration
    | none => false

/-- The UNIQUE(inviter_id, invited_user_id, channel_id) constraint of the
`user_invites` table: a plain INSERT conflicts exactly when a row with the
same inviter, invited and (non-NULL) channel already exists; SQL NULLs
never compare equal, so a NULL channel id never conflicts. -/
def inviteConflict (tbl : List InviteRow) (i j : Nat) (c : Option Nat) : Bool :=
  match c with
  | none => false
  | some cid => tbl.any (fun r => matchesTriple r i j (some cid))

/-- Source `VoiceManager.save_invite_timestamp`: INSERT the new record; a UNIQUE
violation raises inside the `try` and the `except` swallows it, leaving
the table unchanged. -/
def save_invite_timestamp (s : SysState) (i j : Nat) (c : Option Nat)
    (now : Int) : SysState :=
  if inviteConflict s.db_user_invites i j c then s
  else { s with db_user_invites := s.db_user_invites ++ [⟨i, j, now, c⟩] }

/-- Source `VoiceManager.is_on_cooldown`: returns the denial flag and the updated
cooldown map.  A denied attempt leaves the stored timestamp untouched; an
admitted attempt records `now`. -/
def is_on_cooldown (cooldowns : List (Nat × Int)) (user_id : Nat) (now : Int)
    (cooldownTime : Int) : Bool × List (Nat × Int) :=
  match lookupA cooldowns user_id with
  | some t =>
      if now - t < cooldownTime then (true, cooldowns)
      else (false, setA cooldowns user_id now)
  | none => (false, setA cooldowns user_id now)

/-- Source `VoiceManager.create_voice_channel`.  The platform channel is created
first (with the creator holding the elevated overwrite, tracked here as an
explicit connect allow), then the member is relocated into it, and only
then is the row persisted and the registry entry inserted.  `moveFails`
models `member.move_to` raising: the surrounding `except` catches it, so
the persistence and registry steps are skipped while the platform channel
stays. -/
def create_voice_channel (s : SysState) (memberId newChannelId : Nat)
    (categoryExists moveFails : Bool) : SysState :=
  if !categoryExists then s
  else
    let s1 := { s with platform := s.platform ++ [⟨newChannelId, 0, [(memberId, true)]⟩] }
    if moveFails then s1
    else
      let s2 := { s1 with occupancy := setA s1.occupancy memberId newChannelId }
      { s2 with
        db_voice_channels := s2.db_voice_channels ++ [⟨newChannelId, memberId, none⟩],
        voice_channels := setA s2.voice_channels newChannelId memberId }

/-- Source `VoiceManager.delete_voice_channel`: drop the persisted row and its
block rows, forget the registry entry, delete the platform channel (which
disconnects its occupants).  The interface-message cleanup touches only
presentation state and is not modeled. -/
def delete_voice_channel (s : SysState) (cid : Nat) : SysState :=
  { s with
    db_voice_channels := s.db_voice_channels.filter (fun r => r.channel_id != cid),
    db_blocked_users := s.db_blocked_users.filter (fun p => p.1 != cid),
    voice_channels := eraseA s.voice_channels cid,
    platform := s.platform.filter (fun c => c.id != cid),
    occupancy := s.occupancy.filter (fun p => p.2 != cid) }

/-- Source `VoiceManager.on_voice_state_update`.  `voiceAtRecheck` is the member's
voice channel observed after the 0.5s debounce sleep; `newChannelId` is the
id the platform would assign to a freshly created channel. -/
def on_voice_state_update (s : SysState) (memberId : Nat) (isBot : Bool)
    (beforeChannel afterChannel : Option Nat) (now : Int)
    (newChannelId : Nat) (categoryExists moveFails : Bool)
    (voiceAtRecheck : Option Nat) : SysState :=
  if isBot then s
  else if afterChannel == some create_voice_channel_id then
    let r := is_on_cooldown s.cooldowns memberId now cooldown_time
    let s1 := { s with cooldowns := r.2 }
    if r.1 then s1
    else create_voice_channel s1 memberId newChannelId categoryExists moveFails
  else
    match beforeChannel with
    | some bc =>
      match lookupA s.voice_channels bc with
      | some ownerId =>
        if ownerId == memberId then
          if voiceAtRecheck == some bc then s else delete_voice_channel s bc
        else s
      | none => s
    | none => s

/-- One iteration of the `load_voice_channels` loop over a pre-fetched
`(channel_id, owner_id)` row: an absent platform channel has its persisted
rows deleted, a present one is entered into the registry. -/
def loadStep (s : SysState) (row : Nat × Nat) : SysState :=
  match get_channel s row.1 with
  | none =>
    { s with
      db_voice_channels := s.db_voice_channels.filter (fun r => r.channel_id != row.1),
      db_blocked_users := s.db_blocked_users.filter (fun p => p.1 != row.1) }
  | some _ => { s with voice_channels := setA s.voice_channels row.1 row.2 }

/-- Source `VoiceManager.load_voice_channels`: the startup reconciler.  The rows
are fetched once up front (`fetchall`) and then iterated. -/
def load_voice_channels (s : SysState) : SysState :=
  (s.db_voice_channels.map (fun r => (r.channel_id, r.owner_id))).foldl loadStep s

/-- The typed rejections of the shared `VoiceChannelButton.callback`
pre-validation. -/
inductive MutRejection where
  | notInVoice
  | notManaged
  | notOwner
  | channelGone
  deriving DecidableEq

/-- Source `VoiceChannelButton.callback`: the validation gate run before every
owner-initiated mutation.  It only reads state and sends ephemeral error
messages, so it is embedded as a pure function; `userVoiceChannel` is
`interaction.user.voice.channel`. -/
def voiceChannelButtonCallback (s : SysState) (userId : Nat)
    (userVoiceChannel : Option Nat) : Except MutRejection Nat :=
  match userVoiceChannel with
  | none => .error .notInVoice
  | some cid =>
    if !(lookupA s.voice_channels cid).isSome then .error .notManaged
    else if !(is_channel_owner s userId cid) then .error .notOwner
    else if (get_channel s cid).isNone then .error .channelGone
    else .ok cid

/-- The transfer branch of `MemberSelectView.select_callback`: grant the
selected member the elevated overwrite (tracked as connect allow), demote
the old owner to plain connect, UPDATE the persisted row's owner and
overwrite the registry entry.  `memberInGuild` models
`guild.get_member(selected_id)` resolving. -/
def memberSelectTransferCallback (s : SysState) (channelId actorId selectedId : Nat)
    (memberInGuild : Bool) : SysState :=
  match get_channel s channelId with
  | none => s
  | some _ =>
    if !memberInGuild then s
    else
      let s1 := set_permissions s channelId selectedId (some true)
      let s2 := set_permissions s1 channelId actorId (some true)
      { s2 with
        db_voice_channels := s2.db_voice_channels.map fun r =>
          if r.channel_id == channelId then { r with owner_id := selectedId } else r,
        voice_channels := setA s2.voice_channels channelId selectedId }

/-- Outcomes of `InviteUserModal.on_submit`. -/
inductive InviteOutcome where
  | dbUnavailable
  | userNotFound
  | selfInvite
  | rateLimited
  | channelGone
  | blockedUser
  | success
  deriving DecidableEq

/-- Source `InviteUserModal.on_submit`: the invite admission pipeline.
`resolvedUser` is the member the free-text input resolved to, `queryFails`
models the rate-limit store query raising. -/
def inviteUserOnSubmit (s : SysState) (channelId actorId : Nat)
    (resolvedUser : Option Nat) (now : Int) (dbAvailable queryFails : Bool) :
    InviteOutcome × SysState :=
  if !dbAvailable then (.dbUnavailable, s)
  else
    match resolvedUser with
    | none => (.userNotFound, s)
    | some uid =>
      if uid == actorId then (.selfInvite, s)
      else if check_invite_cooldown s actorId uid (some channelId) now queryFails then
        (.rateLimited, s)
      else
        match get_channel s channelId with
        | none => (.channelGone, s)
        | some _ =>
          if (get_blocked_users s channelId).contains uid then (.blockedUser, s)
          else
            let s1 := set_permissions s channelId uid (some true)
            (.success, save_invite_timestamp s1 actorId uid (some channelId) now)

/-- The ephemeral replies `LimitMembersModal.on_submit` can send. -/
inductive LimitReply where
  | invalidNumber
  | noLongerExists
  | removedLimit
  | setTo (n : Int)
  deriving DecidableEq

def trimChars (cs : List Char) : List Char :=
  ((cs.dropWhile (fun c => c.isWhitespace)).reverse.dropWhile
    (fun c => c.isWhitespace)).reverse

def digitsVal (cs : List Char) : Option Nat :=
  if cs.isEmpty then none
  else if cs.all (fun c => c.isDigit)
  then some (cs.foldl (fun acc c => acc * 10 + (c.toNat - 48)) 0)
  else none

/-- Models Python `int(text)` on the inputs this UI can produce: optional
surrounding whitespace, an optional sign, then decimal digits; anything
else raises `ValueError` (here: `none`). -/
def pyInt (text : String) : Option Int :=
  match trimChars text.toList with
  | [] => none
  | c :: rest =>
    if c == Char.ofNat 45 then (digitsVal rest).map (fun n => -(n : Int))
    else if c == Char.ofNat 43 then (digitsVal rest).map (fun n => (n : Int))
    else (digitsVal (c :: rest)).map (fun n => (n : Int))

/-- Models `channel.edit(user_limit=n)`. -/
def editUserLimit (s : SysState) (cid : Nat) (n : Nat) : SysState :=
  { s with platform := s.platform.map fun c =>
      if c.id == cid then { c with userLimit := n } else c }

/-- Source `LimitMembersModal.on_submit`: the returned `Option LimitReply` is the
ephemeral message actually sent back to the actor (`none` when the handler
returns without responding). -/
def limitMembersOnSubmit (s : SysState) (channelId : Nat) (input : String) :
    Option LimitReply × SysState :=
  match pyInt input with
  | none => (some .invalidNumber, s)
  | some v =>
    if v < 0 || v > 99 then (none, s)
    else
      match get_channel s channelId with
      | none => (some .noLongerExists, s)
      | some _ =>
        let s1 := editUserLimit s channelId v.toNat
        if v == 0 then (some .removedLimit, s1) else (some (.setTo v), s1)

/-! Helper lemmas about the association-list and list primitives. -/

theorem lookupA_setA_self {α : Type} (l : List (Nat × α)) (k : Nat) (v : α) :
    lookupA (setA l k v) k = some v := by
  induction l with
  | nil => simp [setA, lookupA]
  | cons p rest ih =>
    obtain ⟨k0, v0⟩ := p
    by_cases h : k0 = k
    · subst h; simp [setA, lookupA]
    · simp [setA, lookupA, h, ih]

theorem lookupA_setA_ne {α : Type} (l : List (Nat × α)) (k k2 : Nat) (v : α)
    (h : k ≠ k2) : lookupA (setA l k v) k2 = lookupA l k2 := by
  induction l with
  | nil => simp [setA, lookupA, h]
  | cons p rest ih =>
    obtain ⟨k0, v0⟩ := p
    by_cases h0 : k0 = k
    · subst h0; simp [setA, lookupA, h]
    · simp [setA, lookupA, h0, ih]

theorem setA_eq_of_lookup {α : Type} (l : List (Nat × α)) (k : Nat) (v : α)
    (h : lookupA l k = some v) : setA l k v = l := by
  induction l with
  | nil => simp [lookupA] at h
  | cons p rest ih =>
    obtain ⟨k0, v0⟩ := p
    by_cases h0 : k0 = k
    · subst h0
      simp [lookupA] at h
      simp [setA, h]
    · simp [lookupA, h0] at h
      simp [setA, h0, ih h]

theorem beq_nat_comm (a b : Nat) : (a == b) = (b == a) := by
  by_cases h : a = b
  · subst h; rfl
  · have h1 : (a == b) = false := by simpa using h
    have h2 : (b == a) = false := by simpa using fun e => h e.symm
    rw [h1, h2]

theorem filter_idem {α : Type} (p : α → Bool) (l : List α) :
    (l.filter p).filter p = l.filter p := by
  induction l with
  | nil => rfl
  | cons a l ih => by_cases h : p a <;> simp [List.filter_cons, h, ih]

theorem filter_filter_comp {α : Type} (p q : α → Bool) (l : List α) :
    (l.filter p).filter q = l.filter (fun a => q a && p a) := by
  induction l with
  | nil => rfl
  | cons a l ih =>
    by_cases hp : p a <;> by_cases hq : q a <;>
      simp [List.filter_cons, hp, hq, ih]

theorem filter_congr_mem {α : Type} {p q : α → Bool} :
    ∀ {l : List α}, (∀ a ∈ l, p a = q a) → l.filter p = l.filter q := by
  intro l
  induction l with
  | nil => intro _; rfl
  | cons a l ih =>
    intro h
    have ha := h a (by simp)
    by_cases hp : p a
    · rw [List.filter_cons, List.filter_cons, hp, ← ha, hp,
        ih (fun x hx => h x (by simp [hx]))]
    · have hp2 : p a = false := by simpa using hp
      rw [List.filter_cons, List.filter_cons, hp2, ← ha, hp2,
        ih (fun x hx => h x (by simp [hx]))]

theorem filter_eq_self_of {α : Type} {p : α → Bool} {l : List α}
    (h : ∀ a ∈ l, p a = true) : l.filter p = l := by
  induction l with
  | nil => rfl
  | cons a l ih =>
    rw [List.filter_cons, h a (by simp), ih (fun x hx => h x (by simp [hx]))]
    simp

theorem map_eq_self_of {α : Type} {f : α → α} {l : List α}
    (h : ∀ a ∈ l, f a = a) : l.map f = l := by
  induction l with
  | nil => rfl
  | cons a l ih =>
    rw [List.map_cons, h a (by simp), ih (fun x hx => h x (by simp [hx]))]

theorem find?_map_of_pred {α : Type} (f : α → α) (p : α → Bool)
    (hp : ∀ a, p (f a) = p a) (l : List α) :
    (l.map f).find? p = (l.find? p).map f := by
  induction l with
  | nil => rfl
  | cons a l ih =>
    rw [List.map_cons]
    by_cases h : p a = true
    · rw [List.find?_cons_of_pos _ (by rw [hp]; exact h),
        List.find?_cons_of_pos _ h]
      rfl
    · rw [List.find?_cons_of_neg _ (by rw [hp]; exact h),
        List.find?_cons_of_neg _ h, ih]

theorem find?_append_ne {α : Type} (l : List α) (a : α) (p : α → Bool)
    (h : p a = false) : (l ++ [a]).find? p = l.find? p := by
  induction l with
  | nil => simp [List.find?, h]
  | cons b l ih =>
    by_cases hb : p b = true
    · rw [List.cons_append, List.find?_cons_of_pos _ hb,
        List.find?_cons_of_pos _ hb]
    · rw [List.cons_append, List.find?_cons_of_neg _ hb,
        List.find?_cons_of_neg _ hb, ih]

/-- Replay a list of registry writes in order. -/
def setFold {α : Type} (r : List (Nat × α)) (L : List (Nat × α)) : List (Nat × α) :=
  L.foldl (fun acc q => setA acc q.1 q.2) r

theorem lookupA_setFold_notmem {α : Type} (L : List (Nat × α)) :
    ∀ (r : List (Nat × α)) (k : Nat), (∀ p ∈ L, p.1 ≠ k) →
      lookupA (setFold r L) k = lookupA r k := by
  induction L with
  | nil => intro r k _; rfl
  | cons q L ih =>
    intro r k h
    rw [setFold, List.foldl_cons]
    have hq : q.1 ≠ k := h q (by simp)
    rw [show (List.foldl (fun acc p => setA acc p.1 p.2) (setA r q.1 q.2) L)
        = setFold (setA r q.1 q.2) L from rfl,
      ih _ k (fun p hp => h p (by simp [hp])), lookupA_setA_ne _ _ _ _ hq]

theorem lookupA_setFold_mem {α : Type} (L : List (Nat × α)) :
    ∀ (r : List (Nat × α)), (L.map Prod.fst).Nodup →
      ∀ p ∈ L, lookupA (setFold r L) p.1 = some p.2 := by
  induction L with
  | nil => intro r _ p hp; simp at hp
  | cons q L ih =>
    intro r hnd p hp
    rw [setFold, List.foldl_cons,
      show (List.foldl (fun acc p => setA acc p.1 p.2) (setA r q.1 q.2) L)
        = setFold (setA r q.1 q.2) L from rfl]
    rcases List.mem_cons.mp hp with h | h
    · subst h
      have hnot : ∀ x ∈ L, x.1 ≠ p.1 := by
        intro x hx
        have := (List.nodup_cons.mp hnd).1
        intro he
        exact this (by rw [← he]; exact List.mem_map_of_mem Prod.fst hx)
      rw [lookupA_setFold_notmem L _ _ hnot, lookupA_setA_self]
    · exact ih _ (List.nodup_cons.mp hnd).2 p h

theorem setFold_eq_self {α : Type} (L : List (Nat × α)) :
    ∀ (r : List (Nat × α)), (∀ p ∈ L, lookupA r p.1 = some p.2) →
      setFold r L = r := by
  induction L with
  | nil => intro r _; rfl
  | cons q L ih =>
    intro r h
    rw [setFold, List.foldl_cons, setA_eq_of_lookup _ _ _ (h q (by simp)),
      show (List.foldl (fun acc p => setA acc p.1 p.2) r L) = setFold r L from rfl,
      ih r (fun p hp => h p (by simp [hp]))]

/-! Characterization of the startup reconciler fold. -/

/-- Whether a channel id is live on the given platform snapshot. -/
def presentOn (P : List Channel) (cid : Nat) : Bool :=
  (P.find? (fun c => c.id == cid)).isSome

theorem presentOn_eq (s : SysState) (cid : Nat) :
    presentOn s.platform cid = (get_channel s cid).isSome := rfl

theorem loadStep_none (s : SysState) (q : Nat × Nat)
    (hc : get_channel s q.1 = none) :
    loadStep s q =
      { s with
        db_voice_channels := s.db_voice_channels.filter (fun r => r.channel_id != q.1),
        db_blocked_users := s.db_blocked_users.filter (fun p => p.1 != q.1) } := by
  unfold loadStep
  rw [hc]

theorem loadStep_some (s : SysState) (q : Nat × Nat) (c : Channel)
    (hc : get_channel s q.1 = some c) :
    loadStep s q = { s with voice_channels := setA s.voice_channels q.1 q.2 } := by
  unfold loadStep
  rw [hc]

theorem foldLoad_platform (L : List (Nat × Nat)) :
    ∀ s : SysState, (L.foldl loadStep s).platform = s.platform := by
  induction L with
  | nil => intro s; rfl
  | cons q L ih =>
    intro s
    rw [List.foldl_cons, ih]
    cases hc : get_channel s q.1 with
    | none => rw [loadStep_none s q hc]
    | some c => rw [loadStep_some s q c hc]

theorem foldLoad_cooldowns (L : List (Nat × Nat)) :
    ∀ s : SysState, (L.foldl loadStep s).cooldowns = s.cooldowns := by
  induction L with
  | nil => intro s; rfl
  | cons q L ih =>
    intro s
    rw [List.foldl_cons, ih]
    cases hc : get_channel s q.1 with
    | none => rw [loadStep_none s q hc]
    | some c => rw [loadStep_some s q c hc]

theorem foldLoad_occupancy (L : List (Nat × Nat)) :
    ∀ s : SysState, (L.foldl loadStep s).occupancy = s.occupancy := by
  induction L with
  | nil => intro s; rfl
  | cons q L ih =>
    intro s
    rw [List.foldl_cons, ih]
    cases hc : get_channel s q.1 with
    | none => rw [loadStep_none s q hc]
    | some c => rw [loadStep_some s q c hc]

theorem foldLoad_invites (L : List (Nat × Nat)) :
    ∀ s : SysState, (L.foldl loadStep s).db_user_invites = s.db_user_invites := by
  induction L with
  | nil => intro s; rfl
  | cons q L ih =>
    intro s
    rw [List.foldl_cons, ih]
    cases hc : get_channel s q.1 with
    | none => rw [loadStep_none s q hc]
    | some c => rw [loadStep_some s q c hc]

theorem foldLoad_db (L : List (Nat × Nat)) :
    ∀ s : SysState, (L.foldl loadStep s).db_voice_channels =
      s.db_voice_channels.filter
        (fun r => !(L.any (fun q => q.1 == r.channel_id && !(presentOn s.platform q.1)))) := by
  induction L with
  | nil => intro s; simp
  | cons q L ih =>
    intro s
    rw [List.foldl_cons]
    cases hc : get_channel s q.1 with
    | some c =>
      have hp : presentOn s.platform q.1 = true := by
        rw [presentOn_eq, hc]; rfl
      rw [loadStep_some s q c hc, ih]
      apply filter_congr_mem
      intro r _
      simp [List.any_cons, hp]
    | none =>
      have hp : presentOn s.platform q.1 = false := by
        rw [presentOn_eq, hc]; rfl
      rw [loadStep_none s q hc, ih, filter_filter_comp]
      apply filter_congr_mem
      intro r _
      simp only [List.any_cons, hp, Bool.not_false, Bool.and_true, Bool.not_or, bne,
        beq_nat_comm r.channel_id q.1]
      exact Bool.and_comm _ _

theorem foldLoad_blocked (L : List (Nat × Nat)) :
    ∀ s : SysState, (L.foldl loadStep s).db_blocked_users =
      s.db_blocked_users.filter
        (fun p => !(L.any (fun q => q.1 == p.1 && !(presentOn s.platform q.1)))) := by
  induction L with
  | nil => intro s; simp
  | cons q L ih =>
    intro s
    rw [List.foldl_cons]
    cases hc : get_channel s q.1 with
    | some c =>
      have hp : presentOn s.platform q.1 = true := by
        rw [presentOn_eq, hc]; rfl
      rw [loadStep_some s q c hc, ih]
      apply filter_congr_mem
      intro p _
      simp [List.any_cons, hp]
    | none =>
      have hp : presentOn s.platform q.1 = false := by
        rw [presentOn_eq, hc]; rfl
      rw [loadStep_none s q hc, ih, filter_filter_comp]
      apply filter_congr_mem
      intro p _
      simp only [List.any_cons, hp, Bool.not_false, Bool.and_true, Bool.not_or, bne,
        beq_nat_comm p.1 q.1]
      exact Bool.and_comm _ _

theorem foldLoad_voice (L : List (Nat × Nat)) :
    ∀ s : SysState, (L.foldl loadStep s).voice_channels =
      setFold s.voice_channels (L.filter (fun q => presentOn s.platform q.1)) := by
  induction L with
  | nil => intro s; rfl
  | cons q L ih =>
    intro s
    rw [List.foldl_cons]
    cases hc : get_channel s q.1 with
    | some c =>
      have hp : presentOn s.platform q.1 = true := by
        rw [presentOn_eq, hc]; rfl
      rw [loadStep_some s q c hc, ih]
      rw [List.filter_cons, hp]
      rfl
    | none =>
      have hp : presentOn s.platform q.1 = false := by
        rw [presentOn_eq, hc]; rfl
      rw [loadStep_none s q hc, ih]
      rw [List.filter_cons, hp]
      rfl

/-! Lemmas about channels and permission writes. -/

theorem setPermCh_id (c : Channel) (uid : Nat) (v : Option Bool) :
    (setPermCh c uid v).id = c.id := by
  cases v <;> rfl

theorem get_channel_set_permissions (s : SysState) (cid uid : Nat) (v : Option Bool)
    (cid2 : Nat) :
    get_channel (set_permissions s cid uid v) cid2 =
      (get_channel s cid2).map
        (fun c => if c.id == cid then setPermCh c uid v else c) := by
  unfold get_channel set_permissions
  exact find?_map_of_pred _ _
    (fun a => by by_cases h : a.id = cid <;> simp [h, setPermCh_id]) _

theorem set_permissions_invites (s : SysState) (cid uid : Nat) (v : Option Bool) :
    (set_permissions s cid uid v).db_user_invites = s.db_user_invites := rfl

theorem set_permissions_blocked (s : SysState) (cid uid : Nat) (v : Option Bool) :
    (set_permissions s cid uid v).db_blocked_users = s.db_blocked_users := rfl

theorem get_channel_pred (s : SysState) (cid : Nat) (c : Channel)
    (h : get_channel s cid = some c) : (c.id == cid) = true := by
  unfold get_channel at h
  have := List.find?_some h
  simpa using this

theorem lastInvite_any (tbl : List InviteRow) (i j : Nat) (c : Option Nat) (t : Int)
    (h : lastInvite tbl i j c = some t) :
    tbl.any (fun r => matchesTriple r i j c) = true := by
  cases hf : tbl.filter (fun r => matchesTriple r i j c) with
  | nil =>
    unfold lastInvite at h
    rw [hf] at h
    simp at h
  | cons r rest =>
    have hr : r ∈ tbl.filter (fun r => matchesTriple r i j c) := by rw [hf]; simp
    have hm := List.mem_filter.mp hr
    exact List.any_eq_true.mpr ⟨r, hm.1, by simpa using hm.2⟩

theorem inviteConflict_of_lastInvite (tbl : List InviteRow) (i j cid : Nat) (t : Int)
    (h : lastInvite tbl i j (some cid) = some t) :
    inviteConflict tbl i j (some cid) = true := by
  unfold inviteConflict
  exact lastInvite_any tbl i j (some cid) t h

theorem map_row_filter (db : List VCRow) (p : Nat → Bool) :
    (db.filter (fun r => p r.channel_id)).map (fun r => (r.channel_id, r.owner_id))
      = (db.map (fun r => (r.channel_id, r.owner_id))).filter (fun q => p q.1) := by
  induction db with
  | nil => rfl
  | cons r db ih =>
    by_cases h : p r.channel_id <;> simp [List.filter_cons, h, ih]

/-! Claim theorems. -/

/-- C4 counterexample: the claim admits an attempt only when the elapsed
time strictly exceeds the cooldown, so at elapsed time exactly equal to the
cooldown (5s after a recorded attempt at time 0) it predicts denial with
the stored timestamp unchanged; `is_on_cooldown` instead admits the attempt
(returns `false`) and overwrites the timestamp, because its test is
`elapsed < cooldown`. -/
theorem C4_counterexample :
    ¬ ((5 : Int) - 0 > cooldown_time)
    ∧ is_on_cooldown [(1, (0 : Int))] 1 5 cooldown_time = (false, [(1, 5)]) := by
  constructor
  · decide
  · rfl

/-- C4 (amended: an attempt is admitted when there is no prior attempt or
the elapsed time is at least — not strictly greater than — the cooldown):
the admission check of `VoiceManager.is_on_cooldown`.  No prior attempt, or
elapsed at least the cooldown: admitted and the timestamp set to `now`;
elapsed strictly below the cooldown: denied and the map unchanged.  Hence
two attempts within one window admit at most the first, and an attempt at
or after the window boundary is admitted. -/
theorem C4_cooldown_admission (cds : List (Nat × Int)) (uid : Nat) (now ct : Int) :
    (lookupA cds uid = none →
      is_on_cooldown cds uid now ct = (false, setA cds uid now))
    ∧ (∀ t, lookupA cds uid = some t → ct ≤ now - t →
      is_on_cooldown cds uid now ct = (false, setA cds uid now))
    ∧ (∀ t, lookupA cds uid = some t → now - t < ct →
      is_on_cooldown cds uid now ct = (true, cds))
    ∧ (∀ t2, (is_on_cooldown cds uid now ct).1 = false → t2 - now < ct →
      is_on_cooldown (is_on_cooldown cds uid now ct).2 uid t2 ct =
        (true, (is_on_cooldown cds uid now ct).2))
    ∧ (∀ t2, (is_on_cooldown cds uid now ct).1 = false → ct ≤ t2 - now →
      is_on_cooldown (is_on_cooldown cds uid now ct).2 uid t2 ct =
        (false, setA (is_on_cooldown cds uid now ct).2 uid t2)) := by
  have h2 : (is_on_cooldown cds uid now ct).1 = false →
      (is_on_cooldown cds uid now ct).2 = setA cds uid now := by
    unfold is_on_cooldown
    cases h : lookupA cds uid with
    | none => intro _; rfl
    | some t =>
      by_cases hlt : now - t < ct
      · simp [hlt]
      · simp [hlt]
  refine ⟨?_, ?_, ?_, ?_, ?_⟩
  · intro h
    unfold is_on_cooldown
    rw [h]
  · intro t h hle
    unfold is_on_cooldown
    rw [h]
    simp [not_lt.mpr hle]
  · intro t h hlt
    unfold is_on_cooldown
    rw [h]
    simp [hlt]
  · intro t2 hadm hlt
    rw [h2 hadm]
    unfold is_on_cooldown
    rw [lookupA_setA_self]
    simp [hlt]
  · intro t2 hadm hle
    rw [h2 hadm]
    unfold is_on_cooldown
    rw [lookupA_setA_self]
    simp [not_lt.mpr hle]

/-- C4 witness: a first-ever attempt is admitted and recorded. -/
theorem C4_witness :
    is_on_cooldown ([] : List (Nat × Int)) 1 0 cooldown_time = (false, [(1, 0)]) :=
  (C4_cooldown_admission [] 1 0 cooldown_time).1 rfl

/-- C5: `VoiceChannelButton.callback` re-validates, in order: (1) the actor
is in some voice channel, (2) that channel is managed (present in the
registry), (3) the actor is the recorded owner, (4) the channel still
exists on the platform; the first failing check short-circuits with its
typed rejection, and all checks passing yields the channel id.  The
embedding is a pure function of the state — the source's rejection paths
only send ephemeral error messages and perform no state change. -/
theorem C5_mutation_validation_order (s : SysState) (userId : Nat) (vc : Option Nat) :
    (vc = none → voiceChannelButtonCallback s userId vc = .error .notInVoice)
    ∧ (∀ cid, vc = some cid → lookupA s.voice_channels cid = none →
        voiceChannelButtonCallback s userId vc = .error .notManaged)
    ∧ (∀ cid o, vc = some cid → lookupA s.voice_channels cid = some o → o ≠ userId →
        voiceChannelButtonCallback s userId vc = .error .notOwner)
    ∧ (∀ cid, vc = some cid → lookupA s.voice_channels cid = some userId →
        get_channel s cid = none →
        voiceChannelButtonCallback s userId vc = .error .channelGone)
    ∧ (∀ cid c, vc = some cid → lookupA s.voice_channels cid = some userId →
        get_channel s cid = some c →
        voiceChannelButtonCallback s userId vc = .ok cid) := by
  refine ⟨?_, ?_, ?_, ?_, ?_⟩
  · intro h; subst h; rfl
  · intro cid h hl; subst h
    simp [voiceChannelButtonCallback, hl]
  · intro cid o h hl hne; subst h
    have hbo : (o == userId) = false := by simpa using hne
    simp [voiceChannelButtonCallback, is_channel_owner, hl, hbo]
  · intro cid h hl hgc; subst h
    simp [voiceChannelButtonCallback, is_channel_owner, hl, hgc]
  · intro cid c h hl hgc; subst h
    simp [voiceChannelButtonCallback, is_channel_owner, hl, hgc]

/-- State used to witness C5: channel 5 is live and owned by actor 7. -/
def sC5 : SysState :=
  { platform := [⟨5, 0, []⟩], occupancy := [], voice_channels := [(5, 7)],
    cooldowns := [], db_voice_channels := [⟨5, 7, none⟩], db_blocked_users := [],
    db_user_invites := [] }

/-- C5 witness: the owner in a live managed channel passes all four checks. -/
theorem C5_witness : voiceChannelButtonCallback sC5 7 (some 5) = .ok 5 :=
  (C5_mutation_validation_order sC5 7 (some 5)).2.2.2.2 5 ⟨5, 0, []⟩ rfl rfl rfl

/-- Empty starting state used to evaluate C2. -/
def sC2 : SysState :=
  { platform := [], occupancy := [], voice_channels := [], cooldowns := [],
    db_voice_channels := [], db_blocked_users := [], db_user_invites := [] }

/-- C2: evaluating `create_voice_channel` for member 7 with fresh platform
channel 100 when the relocation (`member.move_to`) raises: the surrounding
`except` catches the error after the platform channel was created but
before the row insert and registry insert, so nothing is registered — no
`voice_channels` row is persisted and no Ownership Registry entry is
inserted — while the orphaned platform channel remains (the claim and spec
say the resource is still registered). -/
theorem C2_relocation_failure_skips_registration :
    (create_voice_channel sC2 7 100 true true).db_voice_channels = []
    ∧ (create_voice_channel sC2 7 100 true true).voice_channels = []
    ∧ (create_voice_channel sC2 7 100 true true).platform = [⟨100, 0, [(7, true)]⟩] :=
  ⟨rfl, rfl, rfl⟩

/-- State used to evaluate C9: channel 5 is live with user limit 3. -/
def sC9 : SysState :=
  { platform := [⟨5, 3, []⟩], occupancy := [], voice_channels := [(5, 7)],
    cooldowns := [], db_voice_channels := [⟨5, 7, none⟩], db_blocked_users := [],
    db_user_invites := [] }

/-- C9: evaluating `LimitMembersModal.on_submit`.  On the out-of-range
input "-5" the handler parses the number, builds the validation embed, and
returns without ever sending it: the reply is `none` (nothing is reported
to the actor) and the state is unchanged — the claim says the rejection is
reported to the actor.  Non-numeric input does produce the reported
validation error without a crash or state change, and an in-range input is
applied to the channel's user limit. -/
theorem C9_out_of_range_silent :
    limitMembersOnSubmit sC9 5 "-5" = (none, sC9)
    ∧ limitMembersOnSubmit sC9 5 "abc" = (some .invalidNumber, sC9)
    ∧ limitMembersOnSubmit sC9 5 "42" = (some (.setTo 42), editUserLimit sC9 5 42) := by
  refine ⟨?_, ?_, ?_⟩ <;> rfl

/-- C1: transfer atomicity.  After the transfer branch of
`MemberSelectView.select_callback` reassigns channel R from owner A to the
selected member B (with the channel live and the member resolving), the
in-memory Ownership Registry reports owner B, the persisted
`voice_channels` row for R reports owner B, and a subsequent
owner-initiated mutation attempted by A on R is rejected by
`VoiceChannelButton.callback` as the not-owner authorization failure,
which performs no state change (the validation gate is pure). -/
theorem C1_transfer_atomicity (s : SysState) (R A B : Nat) (m : Option Nat) (c : Channel)
    (hrow : (⟨R, A, m⟩ : VCRow) ∈ s.db_voice_channels)
    (hch : get_channel s R = some c)
    (hAB : A ≠ B) :
    lookupA (memberSelectTransferCallback s R A B true).voice_channels R = some B
    ∧ (⟨R, B, m⟩ : VCRow) ∈ (memberSelectTransferCallback s R A B true).db_voice_channels
    ∧ (∀ r ∈ (memberSelectTransferCallback s R A B true).db_voice_channels,
        r.channel_id = R → r.owner_id = B)
    ∧ voiceChannelButtonCallback (memberSelectTransferCallback s R A B true) A (some R)
        = .error .notOwner := by
  have hT : memberSelectTransferCallback s R A B true =
      { set_permissions (set_permissions s R B (some true)) R A (some true) with
        db_voice_channels := s.db_voice_channels.map (fun r =>
          if r.channel_id == R then { r with owner_id := B } else r),
        voice_channels := setA s.voice_channels R B } := by
    unfold memberSelectTransferCallback
    rw [hch]
    rfl
  rw [hT]
  refine ⟨lookupA_setA_self _ _ _, ?_, ?_, ?_⟩
  · have h := List.mem_map_of_mem
      (f := fun r : VCRow => if r.channel_id == R then { r with owner_id := B } else r) hrow
    simpa using h
  · intro r hr heq
    rcases List.mem_map.mp hr with ⟨r0, _, hfr⟩
    by_cases h0 : r0.channel_id = R
    · rw [← hfr]
      simp [h0]
    · exfalso
      apply h0
      have hid : r.channel_id = r0.channel_id := by
        rw [← hfr]
        simp [h0]
      rw [← hid, heq]
  · have hlk : lookupA (setA s.voice_channels R B) R = some B := lookupA_setA_self _ _ _
    have hBA : (B == A) = false := by simpa using fun e => hAB e.symm
    simp [voiceChannelButtonCallback, is_channel_owner, hlk, hBA]

/-- State used to witness C1: channel 9 is live, owned by actor 3, with
actor 4 available as new owner. -/
def sC1 : SysState :=
  { platform := [⟨9, 0, [(3, true)]⟩], occupancy := [(3, 9), (4, 9)],
    voice_channels := [(9, 3)], cooldowns := [],
    db_voice_channels := [⟨9, 3, none⟩], db_blocked_users := [],
    db_user_invites := [] }

/-- C1 witness: after transferring channel 9 from actor 3 to actor 4, the
demoted owner's mutation attempt is rejected as not-owner. -/
theorem C1_witness :
    voiceChannelButtonCallback (memberSelectTransferCallback sC1 9 3 4 true) 3 (some 9)
      = .error .notOwner :=
  (C1_transfer_atomicity sC1 9 3 4 none ⟨9, 0, [(3, true)]⟩ (by decide) rfl
    (by decide)).2.2.2

/-- State used for C3: channel 5 is live and owned by actor 1, and the
`user_invites` table holds the successful invite of user 2 to channel 5 by
actor 1 recorded at time 0. -/
def sC3 : SysState :=
  { platform := [⟨5, 0, []⟩], occupancy := [], voice_channels := [(5, 1)],
    cooldowns := [], db_voice_channels := [⟨5, 1, none⟩], db_blocked_users := [],
    db_user_invites := [⟨1, 2, 0, some 5⟩] }

/-- C3 counterexample: the claim says the invite attempt at T+3 hours
(here 10800s after the record at time 0) succeeds and appends a new
`InviteRecord` row for the triple.  The attempt does succeed, but the
table is unchanged: the INSERT violates the
UNIQUE(inviter_id, invited_user_id, channel_id) constraint and
`save_invite_timestamp` swallows the error, so no row is appended. -/
theorem C3_counterexample :
    (inviteUserOnSubmit sC3 5 1 (some 2) 10800 true false).1 = .success
    ∧ (inviteUserOnSubmit sC3 5 1 (some 2) 10800 true false).2.db_user_invites
        = [⟨1, 2, 0, some 5⟩] :=
  ⟨rfl, rfl⟩

/-- C3 (amended: the attempt at T+3 hours succeeds — the connect right is
granted — but appends no new row, because the INSERT hits the
UNIQUE(inviter, invited, channel) constraint and the error is swallowed,
leaving the recorded timestamp at T): with a successful invite for
(inviter I, invited J, channel R) recorded at time T as the latest
matching row, an attempt at T+1h is rejected as rate-limited with no state
change, and an attempt at T+3h succeeds, grants J the connect right on R,
and leaves the `user_invites` table unchanged. -/
theorem C3_invite_rate_limit (s : SysState) (R I J : Nat) (T : Int) (c : Channel)
    (hJ : J ≠ I)
    (hlast : lastInvite s.db_user_invites I J (some R) = some T)
    (hch : get_channel s R = some c)
    (hnb : (get_blocked_users s R).contains J = false) :
    inviteUserOnSubmit s R I (some J) (T + 3600) true false = (.rateLimited, s)
    ∧ (inviteUserOnSubmit s R I (some J) (T + 10800) true false).1 = .success
    ∧ (inviteUserOnSubmit s R I (some J) (T + 10800) true false).2.db_user_invites
        = s.db_user_invites
    ∧ (get_channel (inviteUserOnSubmit s R I (some J) (T + 10800) true false).2 R).map
        (fun ch => connectOf ch J) = some (some true) := by
  have hj : (J == I) = false := by simpa using hJ
  have hcool1 : check_invite_cooldown s I J (some R) (T + 3600) false = true := by
    unfold check_invite_cooldown
    rw [hlast]
    simp only [Bool.false_eq_true, if_false, decide_eq_true_eq, invite_cooldown_duration]
    omega
  have hcool2 : check_invite_cooldown s I J (some R) (T + 10800) false = false := by
    unfold check_invite_cooldown
    rw [hlast]
    simp only [Bool.false_eq_true, if_false, decide_eq_false_iff_not,
      invite_cooldown_duration]
    omega
  have hconf := inviteConflict_of_lastInvite s.db_user_invites I J R T hlast
  have hcid := get_channel_pred s R c hch
  have hnb2 : J ∉ get_blocked_users s R := by simpa using hnb
  refine ⟨?_, ?_, ?_, ?_⟩
  · unfold inviteUserOnSubmit
    simp [hj, hcool1]
  · unfold inviteUserOnSubmit
    simp [hj, hcool2, hch, hnb2]
  · unfold inviteUserOnSubmit
    simp [hj, hcool2, hch, hnb2, save_invite_timestamp,
      set_permissions_invites, hconf]
  · unfold inviteUserOnSubmit
    have hc2 : c.id = R := by simpa using hcid
    simp [hj, hcool2, hch, hnb2, save_invite_timestamp,
      set_permissions_invites, hconf, get_channel_set_permissions, hc2,
      connectOf, setPermCh, lookupA_setA_self]

/-- C3 witness: the attempt one hour after the recorded invite is rejected
as rate-limited with no state change. -/
theorem C3_witness :
    inviteUserOnSubmit sC3 5 1 (some 2) 3600 true false = (.rateLimited, sC3) :=
  (C3_invite_rate_limit sC3 5 1 2 0 ⟨5, 0, []⟩ (by decide) rfl rfl rfl).1

/-- C10: the rate-limit check inside the invite path fails open.  When the
store query raises, `check_invite_cooldown` returns false (not
rate-limited), so an invite for a triple whose latest record is inside the
2-hour window — which would be rejected with a working store — is still
granted. -/
theorem C10_invite_fails_open (s : SysState) (R I J : Nat) (now T : Int) (c : Channel)
    (hJ : J ≠ I)
    (hlast : lastInvite s.db_user_invites I J (some R) = some T)
    (hwin : now - T < invite_cooldown_duration)
    (hch : get_channel s R = some c)
    (hnb : (get_blocked_users s R).contains J = false) :
    check_invite_cooldown s I J (some R) now true = false
    ∧ (inviteUserOnSubmit s R I (some J) now true true).1 = .success
    ∧ (inviteUserOnSubmit s R I (some J) now true false).1 = .rateLimited := by
  have hj : (J == I) = false := by simpa using hJ
  have hcoolOk : check_invite_cooldown s I J (some R) now false = true := by
    unfold check_invite_cooldown
    rw [hlast]
    simp only [Bool.false_eq_true, if_false, decide_eq_true_eq]
    exact hwin
  have hnb2 : J ∉ get_blocked_users s R := by simpa using hnb
  refine ⟨rfl, ?_, ?_⟩
  · unfold inviteUserOnSubmit
    simp [hj, check_invite_cooldown, hch, hnb2]
  · unfold inviteUserOnSubmit
    simp [hj, hcoolOk]

/-- State used to witness C10: same shape as for C3, with the latest
invite record for (1, 2, channel 5) at time 0. -/
def sC10 : SysState :=
  { platform := [⟨5, 0, []⟩], occupancy := [], voice_channels := [(5, 1)],
    cooldowns := [], db_voice_channels := [⟨5, 1, none⟩], db_blocked_users := [],
    db_user_invites := [⟨1, 2, 0, some 5⟩] }

/-- C10 witness: one hour into the window, the invite is granted when the
store lookup fails. -/
theorem C10_witness :
    (inviteUserOnSubmit sC10 5 1 (some 2) 3600 true true).1 = .success :=
  (C10_invite_fails_open sC10 5 1 2 3600 0 ⟨5, 0, []⟩ (by decide) rfl (by decide)
    rfl rfl).2.1

/-! Support lemmas for the block/unblock round trip. -/

theorem get_channel_platform (s : SysState) (cid : Nat) :
    get_channel s cid = s.platform.find? (fun ch => ch.id == cid) := rfl

theorem get_channel_irrelpd (s : SysState) (X : List (Nat × Nat)) (cid : Nat) :
    get_channel { s with db_blocked_users := X } cid = get_channel s cid := rfl

theorem find?_perm_map (P : List Channel) (cid uid : Nat) (v : Option Bool) (cid2 : Nat) :
    (P.map (fun ch => if ch.id == cid then setPermCh ch uid v else ch)).find?
        (fun ch => ch.id == cid2)
      = (P.find? (fun ch => ch.id == cid2)).map
          (fun ch => if ch.id == cid then setPermCh ch uid v else ch) :=
  find?_map_of_pred _ _ (fun a => by by_cases h : a.id = cid <;> simp [h, setPermCh_id]) _

theorem setPermCh_idem_true (x : Channel) (uid : Nat)
    (h : lookupA x.perms uid = some true) : setPermCh x uid (some true) = x := by
  show { x with perms := setA x.perms uid true } = x
  rw [setA_eq_of_lookup _ _ _ h]

theorem bool_ite_proj {β : Type} (f : SysState → β) (b : Bool) (x y : SysState) (P : β)
    (hx : f x = P) (hy : f y = P) : f (if b then x else y) = P := by
  cases b
  · simpa using hy
  · simpa using hx

theorem block_user_blocked (s : SysState) (cid uid : Nat) (g : Bool) :
    (block_user s cid uid g).db_blocked_users =
      if s.db_blocked_users.any (fun p => p.1 == cid && p.2 == uid)
      then s.db_blocked_users else s.db_blocked_users ++ [(cid, uid)] := by
  simp only [block_user]
  by_cases hmem : s.db_blocked_users.any (fun p => p.1 == cid && p.2 == uid) = true
  · rw [if_pos hmem, if_pos hmem]
    cases hc : get_channel s cid with
    | none => rfl
    | some c =>
      cases g with
      | false => rfl
      | true =>
        apply bool_ite_proj
        · apply bool_ite_proj <;> rfl
        · rfl
  · rw [if_neg hmem, if_neg hmem, get_channel_irrelpd]
    cases hc : get_channel s cid with
    | none => rfl
    | some c =>
      cases g with
      | false => rfl
      | true =>
        apply bool_ite_proj
        · apply bool_ite_proj <;> rfl
        · rfl

theorem block_user_platform (s : SysState) (cid uid : Nat) (c : Channel)
    (hch : get_channel s cid = some c) :
    (block_user s cid uid true).platform =
      s.platform.map (fun ch => if ch.id == cid then setPermCh ch uid (some false) else ch) := by
  simp only [block_user]
  by_cases hmem : s.db_blocked_users.any (fun p => p.1 == cid && p.2 == uid) = true
  · rw [if_pos hmem, hch]
    apply bool_ite_proj <;> rfl
  · rw [if_neg hmem, get_channel_irrelpd, hch]
    apply bool_ite_proj <;> rfl

theorem unblock_user_blocked (s : SysState) (cid uid : Nat) (g : Bool) :
    (unblock_user s cid uid g).db_blocked_users =
      s.db_blocked_users.filter (fun p => !(p.1 == cid && p.2 == uid)) := by
  simp only [unblock_user]
  rw [get_channel_irrelpd]
  cases hc : get_channel s cid with
  | none => rfl
  | some c =>
    cases g with
    | false => rfl
    | true => rfl

theorem unblock_user_platform (s : SysState) (cid uid : Nat) (c : Channel)
    (hch : get_channel s cid = some c) :
    (unblock_user s cid uid true).platform =
      s.platform.map (fun ch => if ch.id == cid then setPermCh ch uid (some true) else ch) := by
  simp only [unblock_user]
  rw [get_channel_irrelpd, hch]
  rfl

theorem unblock_user_rest (s : SysState) (cid uid : Nat) (g : Bool) :
    (unblock_user s cid uid g).occupancy = s.occupancy
    ∧ (unblock_user s cid uid g).voice_channels = s.voice_channels
    ∧ (unblock_user s cid uid g).cooldowns = s.cooldowns
    ∧ (unblock_user s cid uid g).db_voice_channels = s.db_voice_channels
    ∧ (unblock_user s cid uid g).db_user_invites = s.db_user_invites := by
  simp only [unblock_user]
  rw [get_channel_irrelpd]
  cases hc : get_channel s cid with
  | none => exact ⟨rfl, rfl, rfl, rfl, rfl⟩
  | some c =>
    cases g with
    | false => exact ⟨rfl, rfl, rfl, rfl, rfl⟩
    | true => exact ⟨rfl, rfl, rfl, rfl, rfl⟩

/-- C6 (amended: unblock after block removes the BlockEntry row and sets
the user's connect-right on the resource to an explicit allow — which
restores the pre-block value only when that value was already an explicit
allow, not when it was inherit — and repeating unblock on the
already-unblocked user is a no-op): `unblock_user` after `block_user` on a
live channel deletes the `blocked_users` row, leaves the user with
connect explicitly allowed, and a second `unblock_user` changes
nothing. -/
theorem C6_block_unblock_round_trip (s : SysState) (cid uid : Nat) (c : Channel)
    (hch : get_channel s cid = some c) :
    (unblock_user (block_user s cid uid true) cid uid true).db_blocked_users
      = s.db_blocked_users.filter (fun p => !(p.1 == cid && p.2 == uid))
    ∧ (get_channel (unblock_user (block_user s cid uid true) cid uid true) cid).map
        (fun ch => connectOf ch uid) = some (some true)
    ∧ unblock_user (unblock_user (block_user s cid uid true) cid uid true) cid uid true
        = unblock_user (block_user s cid uid true) cid uid true := by
  have hc2 : c.id = cid := by simpa using get_channel_pred s cid c hch
  have hbP := block_user_platform s cid uid c hch
  have hchb : get_channel (block_user s cid uid true) cid
      = some (setPermCh c uid (some false)) := by
    rw [get_channel_platform, hbP, find?_perm_map]
    rw [show s.platform.find? (fun ch => ch.id == cid) = some c from hch]
    simp [hc2]
  have huP := unblock_user_platform (block_user s cid uid true) cid uid
    (setPermCh c uid (some false)) hchb
  have hch6 : get_channel (unblock_user (block_user s cid uid true) cid uid true) cid
      = some (setPermCh (setPermCh c uid (some false)) uid (some true)) := by
    rw [get_channel_platform, huP, find?_perm_map]
    rw [show (block_user s cid uid true).platform.find? (fun ch => ch.id == cid)
      = some (setPermCh c uid (some false)) from hchb]
    simp [setPermCh_id, hc2]
  have hblocked6 : (unblock_user (block_user s cid uid true) cid uid true).db_blocked_users
      = s.db_blocked_users.filter (fun p => !(p.1 == cid && p.2 == uid)) := by
    rw [unblock_user_blocked, block_user_blocked]
    by_cases hmem : s.db_blocked_users.any (fun p => p.1 == cid && p.2 == uid) = true
    · rw [if_pos hmem]
    · rw [if_neg hmem, List.filter_append]
      simp
  refine ⟨hblocked6, ?_, ?_⟩
  · rw [hch6]
    simp [connectOf, setPermCh, lookupA_setA_self]
  · have hrest := unblock_user_rest
      (unblock_user (block_user s cid uid true) cid uid true) cid uid true
    refine SysState.ext ?_ ?_ ?_ ?_ ?_ ?_ ?_
    · rw [unblock_user_platform
        (unblock_user (block_user s cid uid true) cid uid true) cid uid
        (setPermCh (setPermCh c uid (some false)) uid (some true)) hch6]
      apply map_eq_self_of
      intro ch hmem
      rw [huP] at hmem
      rcases List.mem_map.mp hmem with ⟨ch0, _, hfr⟩
      by_cases hid : ch0.id = cid
      · have hch0 : ch = setPermCh ch0 uid (some true) := by
          rw [← hfr]
          simp [hid]
        rw [hch0]
        simp only [setPermCh_id, hid, beq_self_eq_true, if_true]
        exact setPermCh_idem_true _ _ (lookupA_setA_self _ _ _)
      · have hch0 : ch = ch0 := by
          rw [← hfr]
          simp [hid]
        rw [hch0]
        simp [hid]
    · exact hrest.1
    · exact hrest.2.1
    · exact hrest.2.2.1
    · exact hrest.2.2.2.1
    · rw [unblock_user_blocked, hblocked6, filter_idem]
    · exact hrest.2.2.2.2

/-- State used for C6: channel 5 is live with no permission overwrites, so
user 20's pre-block connect-right is inherit. -/
def sC6 : SysState :=
  { platform := [⟨5, 0, []⟩], occupancy := [], voice_channels := [(5, 10)],
    cooldowns := [], db_voice_channels := [⟨5, 10, none⟩], db_blocked_users := [],
    db_user_invites := [] }

/-- C6 counterexample: before the block, user 20's connect-right on
channel 5 is inherit (`none`); after `block` then `unblock` it is an
explicit allow (`some true`), so the round trip does not restore the
pre-block value as the claim states. -/
theorem C6_counterexample :
    (get_channel sC6 5).map (fun ch => connectOf ch 20) = some none
    ∧ (get_channel (unblock_user (block_user sC6 5 20 true) 5 20 true) 5).map
        (fun ch => connectOf ch 20) = some (some true) :=
  ⟨rfl, rfl⟩

/-- C6 witness: the block row for (channel 5, user 20) is gone after the
round trip. -/
theorem C6_witness :
    (unblock_user (block_user sC6 5 20 true) 5 20 true).db_blocked_users = [] :=
  (C6_block_unblock_round_trip sC6 5 20 ⟨5, 0, []⟩ rfl).1

/-- What C8 asserts is preserved for resource R owned by `o`: the registry
entry, the persisted `voice_channels` rows for R, the persisted
`blocked_users` rows for R, and R's platform-level state. -/
def preservedAt (s2 s : SysState) (R o : Nat) : Prop :=
  lookupA s2.voice_channels R = some o
  ∧ s2.db_voice_channels.filter (fun r => r.channel_id == R)
      = s.db_voice_channels.filter (fun r => r.channel_id == R)
  ∧ s2.db_blocked_users.filter (fun p => p.1 == R)
      = s.db_blocked_users.filter (fun p => p.1 == R)
  ∧ get_channel s2 R = get_channel s R

/-- C8: destruction is triggered only by the recorded owner leaving.  For
any presence event in which a non-owner occupant leaves the managed
resource R (their before-channel), `on_voice_state_update` performs no
destruction side effect on R: R's registry entry, persisted rows, block
rows, and platform channel are unchanged — whatever the member's
destination, bot flag, cooldown state, or debounce observation. -/
theorem C8_non_owner_leave_no_destroy (s : SysState) (memberId : Nat) (isBot : Bool)
    (afterChannel : Option Nat) (now : Int) (newChannelId : Nat)
    (categoryExists moveFails : Bool) (voiceAtRecheck : Option Nat) (R o : Nat)
    (hreg : lookupA s.voice_channels R = some o)
    (hno : o ≠ memberId)
    (hnew : newChannelId ≠ R) :
    preservedAt
      (on_voice_state_update s memberId isBot (some R) afterChannel now
        newChannelId categoryExists moveFails voiceAtRecheck) s R o := by
  have hnewb : (newChannelId == R) = false := by simpa using hnew
  have hnob : (o == memberId) = false := by simpa using hno
  unfold on_voice_state_update
  cases isBot with
  | true => exact ⟨hreg, rfl, rfl, rfl⟩
  | false =>
    by_cases hAfter : (afterChannel == some create_voice_channel_id) = true
    · rw [if_neg (by simp), if_pos hAfter]
      by_cases hcd : (is_on_cooldown s.cooldowns memberId now cooldown_time).1 = true
      · rw [if_pos hcd]
        exact ⟨hreg, rfl, rfl, rfl⟩
      · rw [if_neg hcd]
        unfold create_voice_channel
        cases categoryExists with
        | false => exact ⟨hreg, rfl, rfl, rfl⟩
        | true =>
          cases moveFails with
          | true =>
            refine ⟨hreg, rfl, rfl, ?_⟩
            show (s.platform
                ++ [(⟨newChannelId, 0, [(memberId, true)]⟩ : Channel)]).find?
                  (fun c => c.id == R) = get_channel s R
            rw [find?_append_ne _ _ _ (by simpa using hnewb)]
            rfl
          | false =>
            refine ⟨?_, ?_, rfl, ?_⟩
            · show lookupA (setA s.voice_channels newChannelId memberId) R = some o
              rw [lookupA_setA_ne _ _ _ _ hnew, hreg]
            · show (s.db_voice_channels
                  ++ [(⟨newChannelId, memberId, none⟩ : VCRow)]).filter
                    (fun r => r.channel_id == R)
                = s.db_voice_channels.filter (fun r => r.channel_id == R)
              rw [List.filter_append]
              simp [hnewb]
            · show (s.platform
                  ++ [(⟨newChannelId, 0, [(memberId, true)]⟩ : Channel)]).find?
                    (fun c => c.id == R) = get_channel s R
              rw [find?_append_ne _ _ _ (by simpa using hnewb)]
              rfl
    · have hAfter2 : (afterChannel == some create_voice_channel_id) = false := by
        simpa using hAfter
      rw [if_neg (by simp), if_neg (by simp [hAfter2])]
      have hbranch : (match some R with
          | some bc =>
            match lookupA s.voice_channels bc with
            | some ownerId =>
              if ownerId == memberId then
                if voiceAtRecheck == some bc then s else delete_voice_channel s bc
              else s
            | none => s
          | none => (s : SysState)) = s := by
        show (match lookupA s.voice_channels R with
            | some ownerId =>
              if ownerId == memberId then
                if voiceAtRecheck == some R then s else delete_voice_channel s R
              else s
            | none => s) = s
        rw [hreg]
        show (if (o == memberId) = true then
            if voiceAtRecheck == some R then s else delete_voice_channel s R
          else s) = s
        rw [if_neg (by simp [hnob])]
      rw [hbranch]
      exact ⟨hreg, rfl, rfl, rfl⟩

/-- State used to witness C8: channel 5 is managed with owner 10 and a
block row; member 20 (not the owner) leaves channel 5. -/
def sC8 : SysState :=
  { platform := [⟨5, 0, []⟩], occupancy := [(10, 5)], voice_channels := [(5, 10)],
    cooldowns := [], db_voice_channels := [⟨5, 10, none⟩],
    db_blocked_users := [(5, 30)], db_user_invites := [] }

/-- C8 witness: member 20 leaving channel 5 (owned by 10) towards nowhere
destroys nothing about channel 5. -/
theorem C8_witness :
    preservedAt
      (on_voice_state_update sC8 20 false (some 5) none 0 99 true false none)
      sC8 5 10 :=
  C8_non_owner_leave_no_destroy sC8 20 false none 0 99 true false none 5 10
    rfl (by decide) (by decide)

/-! Closed forms for the startup reconciler. -/

theorem load_platform (s : SysState) :
    (load_voice_channels s).platform = s.platform :=
  foldLoad_platform _ s

theorem load_cooldowns (s : SysState) :
    (load_voice_channels s).cooldowns = s.cooldowns :=
  foldLoad_cooldowns _ s

theorem load_occupancy (s : SysState) :
    (load_voice_channels s).occupancy = s.occupancy :=
  foldLoad_occupancy _ s

theorem load_invites (s : SysState) :
    (load_voice_channels s).db_user_invites = s.db_user_invites :=
  foldLoad_invites _ s

theorem load_db (s : SysState) :
    (load_voice_channels s).db_voice_channels =
      s.db_voice_channels.filter (fun r =>
        !((s.db_voice_channels.map (fun r0 => (r0.channel_id, r0.owner_id))).any
          (fun q => q.1 == r.channel_id && !(presentOn s.platform q.1)))) :=
  foldLoad_db _ s

theorem load_blocked (s : SysState) :
    (load_voice_channels s).db_blocked_users =
      s.db_blocked_users.filter (fun p =>
        !((s.db_voice_channels.map (fun r0 => (r0.channel_id, r0.owner_id))).any
          (fun q => q.1 == p.1 && !(presentOn s.platform q.1)))) :=
  foldLoad_blocked _ s

theorem load_voice (s : SysState) :
    (load_voice_channels s).voice_channels =
      setFold s.voice_channels
        ((s.db_voice_channels.map (fun r0 => (r0.channel_id, r0.owner_id))).filter
          (fun q => presentOn s.platform q.1)) :=
  foldLoad_voice _ s

/-- C7: the startup reconciler is idempotent and repairs drift.  Starting
from a startup state (empty in-memory registry; the `channel_id` column is
a primary key, so the persisted rows have pairwise distinct ids), one run
of `load_voice_channels` deletes the `voice_channels` and `blocked_users`
rows of every persisted resource whose platform channel is absent and
leaves no registry entry for it, populates the registry entry of every
present one with its persisted owner, and a second run with no intervening
platform change changes nothing at all. -/
theorem C7_reconciler_idempotent (s : SysState)
    (hreg : s.voice_channels = [])
    (hnd : (s.db_voice_channels.map VCRow.channel_id).Nodup) :
    load_voice_channels (load_voice_channels s) = load_voice_channels s
    ∧ (∀ r ∈ s.db_voice_channels, get_channel s r.channel_id = none →
        (∀ rr ∈ (load_voice_channels s).db_voice_channels, rr.channel_id ≠ r.channel_id)
        ∧ (∀ p ∈ (load_voice_channels s).db_blocked_users, p.1 ≠ r.channel_id)
        ∧ lookupA (load_voice_channels s).voice_channels r.channel_id = none)
    ∧ (∀ r ∈ s.db_voice_channels, ∀ c, get_channel s r.channel_id = some c →
        lookupA (load_voice_channels s).voice_channels r.channel_id = some r.owner_id) := by
  have hPresMem : ∀ r ∈ s.db_voice_channels,
      (r.channel_id, r.owner_id) ∈
        s.db_voice_channels.map (fun r0 => (r0.channel_id, r0.owner_id)) := by
    intro r hr
    exact List.mem_map_of_mem _ hr
  have hKeys : ((s.db_voice_channels.map (fun r0 => (r0.channel_id, r0.owner_id))).map
      Prod.fst) = s.db_voice_channels.map VCRow.channel_id := by
    rw [List.map_map]
    rfl
  have hNodupRows : ((s.db_voice_channels.map
      (fun r0 => (r0.channel_id, r0.owner_id))).map Prod.fst).Nodup := by
    rw [hKeys]
    exact hnd
  have hNodupP : (((s.db_voice_channels.map (fun r0 => (r0.channel_id, r0.owner_id))).filter
      (fun q => presentOn s.platform q.1)).map Prod.fst).Nodup :=
    List.Nodup.sublist (List.Sublist.map _ (List.filter_sublist _)) hNodupRows
  have hVCload : (load_voice_channels s).voice_channels =
      setFold []
        ((s.db_voice_channels.map (fun r0 => (r0.channel_id, r0.owner_id))).filter
          (fun q => presentOn s.platform q.1)) := by
    rw [load_voice, hreg]
  have hVCmem : ∀ q ∈ (s.db_voice_channels.map
        (fun r0 => (r0.channel_id, r0.owner_id))).filter
        (fun q => presentOn s.platform q.1),
      lookupA (load_voice_channels s).voice_channels q.1 = some q.2 := by
    intro q hq
    rw [hVCload]
    exact lookupA_setFold_mem _ [] hNodupP q hq
  refine ⟨?_, ?_, ?_⟩
  · have hDbPred : ∀ r ∈ s.db_voice_channels,
        (!((s.db_voice_channels.map (fun r0 => (r0.channel_id, r0.owner_id))).any
          (fun q => q.1 == r.channel_id && !(presentOn s.platform q.1))))
          = presentOn s.platform r.channel_id := by
      intro r hr
      cases hp : presentOn s.platform r.channel_id with
      | true =>
        have hany : ((s.db_voice_channels.map (fun r0 => (r0.channel_id, r0.owner_id))).any
            (fun q => q.1 == r.channel_id && !(presentOn s.platform q.1))) = false := by
          rw [List.any_eq_false]
          intro q hq
          by_cases hqr : q.1 = r.channel_id
          · simp [hqr, hp]
          · simp [hqr]
        rw [hany]
        rfl
      | false =>
        have hany : ((s.db_voice_channels.map (fun r0 => (r0.channel_id, r0.owner_id))).any
            (fun q => q.1 == r.channel_id && !(presentOn s.platform q.1))) = true :=
          List.any_eq_true.mpr ⟨(r.channel_id, r.owner_id), hPresMem r hr, by simp [hp]⟩
        rw [hany]
        rfl
    have hDb1 : (load_voice_channels s).db_voice_channels =
        s.db_voice_channels.filter (fun r => presentOn s.platform r.channel_id) := by
      rw [load_db]
      exact filter_congr_mem hDbPred
    have hRows1 : ((load_voice_channels s).db_voice_channels.map
        (fun r0 => (r0.channel_id, r0.owner_id))) =
        (s.db_voice_channels.map (fun r0 => (r0.channel_id, r0.owner_id))).filter
          (fun q => presentOn s.platform q.1) := by
      rw [hDb1, map_row_filter]
    have hPres1 : ∀ q ∈ (load_voice_channels s).db_voice_channels.map
        (fun r0 => (r0.channel_id, r0.owner_id)),
        presentOn (load_voice_channels s).platform q.1 = true := by
      intro q hq
      rw [hRows1] at hq
      rw [load_platform]
      exact (List.mem_filter.mp hq).2
    refine SysState.ext ?_ ?_ ?_ ?_ ?_ ?_ ?_
    · exact load_platform _
    · exact load_occupancy _
    · rw [load_voice (load_voice_channels s), filter_eq_self_of hPres1]
      apply setFold_eq_self
      intro q hq
      rw [hRows1] at hq
      exact hVCmem q hq
    · exact load_cooldowns _
    · rw [load_db (load_voice_channels s)]
      apply filter_eq_self_of
      intro rr _
      have hany : (((load_voice_channels s).db_voice_channels.map
          (fun r0 => (r0.channel_id, r0.owner_id))).any
          (fun q => q.1 == rr.channel_id
            && !(presentOn (load_voice_channels s).platform q.1))) = false := by
        rw [List.any_eq_false]
        intro q hq
        simp [hPres1 q hq]
      rw [hany]
      rfl
    · rw [load_blocked (load_voice_channels s)]
      apply filter_eq_self_of
      intro pp _
      have hany : (((load_voice_channels s).db_voice_channels.map
          (fun r0 => (r0.channel_id, r0.owner_id))).any
          (fun q => q.1 == pp.1
            && !(presentOn (load_voice_channels s).platform q.1))) = false := by
        rw [List.any_eq_false]
        intro q hq
        simp [hPres1 q hq]
      rw [hany]
      rfl
    · exact load_invites _
  · intro r hr habs
    have hpf : presentOn s.platform r.channel_id = false := by
      rw [presentOn_eq, habs]
      rfl
    have hWitness : ((s.db_voice_channels.map (fun r0 => (r0.channel_id, r0.owner_id))).any
        (fun q => q.1 == r.channel_id && !(presentOn s.platform q.1))) = true :=
      List.any_eq_true.mpr ⟨(r.channel_id, r.owner_id), hPresMem r hr, by simp [hpf]⟩
    refine ⟨?_, ?_, ?_⟩
    · intro rr hrr heq
      rw [load_db] at hrr
      have hpred := (List.mem_filter.mp hrr).2
      rw [heq, hWitness] at hpred
      simp at hpred
    · intro pp hpp heq
      rw [load_blocked] at hpp
      have hpred := (List.mem_filter.mp hpp).2
      rw [heq, hWitness] at hpred
      simp at hpred
    · rw [hVCload, lookupA_setFold_notmem]
      · rfl
      · intro q hq heq
        have hqp := (List.mem_filter.mp hq).2
        rw [heq, hpf] at hqp
        simp at hqp
  · intro r hr c hc
    have hpt : presentOn s.platform r.channel_id = true := by
      rw [presentOn_eq, hc]
      rfl
    exact hVCmem (r.channel_id, r.owner_id)
      (List.mem_filter.mpr ⟨hPresMem r hr, hpt⟩)

/-- State used to witness C7: platform channel 1 is live, channel 2 is
gone; the store still holds rows for both plus a block row for the gone
channel; the registry is in its startup (empty) state. -/
def sC7 : SysState :=
  { platform := [⟨1, 0, []⟩], occupancy := [], voice_channels := [],
    cooldowns := [], db_voice_channels := [⟨1, 10, none⟩, ⟨2, 20, none⟩],
    db_blocked_users := [(2, 5)], db_user_invites := [] }

/-- C7 witness: running the reconciler a second time on the reconciled
state changes nothing. -/
theorem C7_witness :
    load_voice_channels (load_voice_channels sC7) = load_voice_channels sC7 :=
  (C7_reconciler_idempotent sC7 rfl (by decide)).1

end SpeakHub
